import Mathlib

/-!
Verification development for a small Go OpenGL demo repository
(three demo programs: a fixed-pipeline scene, a shader-based
"hello" textured quad, and a shader-based scene with three draw
passes).  The Go functions relevant to the claims are shallowly
embedded below: pure float arithmetic is modelled over the
rationals, GL call sequences as explicit command lists, and
fallible construction as Except values.
-/

/-- Truncation toward zero on the rationals, as used by the Go
runtime when computing math.Mod: the quotient is truncated, not
floored. -/
def goTrunc (q : ℚ) : ℤ := if 0 ≤ q then ⌊q⌋ else ⌈q⌉

/-- Model of Go math.Mod(x, y): x - y * trunc(x / y).  The result
has the sign of x, matching the Go library documentation. -/
def goMod (x y : ℚ) : ℚ := x - y * (goTrunc (x / y) : ℚ)

/-- Embedding of hsb2rgb from the source (identical in the
fixed-pipeline demo and the three-pass demo): chroma c = b*s, the
hue scaled by 6, the secondary component
x = c * (1 - |mod(h, 2) - 1|), then a chain of comparisons h < 1,
h < 2, ..., h < 5 selecting the returned triple. -/
def hsb2rgb (h s b : ℚ) : ℚ × ℚ × ℚ :=
  let c := b * s
  let h := h * 6
  let x := c * (1 - |goMod h 2 - 1|)
  if h < 1 then (c, x, 0)
  else if h < 2 then (x, c, 0)
  else if h < 3 then (0, c, x)
  else if h < 4 then (0, x, c)
  else if h < 5 then (x, 0, c)
  else (c, 0, x)

/-- The six-sector lookup table exactly as the spec words it:
sector 0 gives (c,x,0), 1 gives (x,c,0), 2 gives (0,c,x),
3 gives (0,x,c), 4 gives (x,0,c), 5 gives (c,0,x). -/
def sectorTable (k : ℤ) (c x : ℚ) : ℚ × ℚ × ℚ :=
  if k = 0 then (c, x, 0)
  else if k = 1 then (x, c, 0)
  else if k = 2 then (0, c, x)
  else if k = 3 then (0, x, c)
  else if k = 4 then (x, 0, c)
  else (c, 0, x)

theorem floorEq (q : ℚ) (k : ℤ) (hl : (k : ℚ) ≤ q) (hr : q < (k : ℚ) + 1) :
    ⌊q⌋ = k := by
  rw [Int.floor_eq_iff]
  exact ⟨hl, by push_cast; linarith⟩

/-- C1: for hue in [0,1) and saturation, brightness in [0,1], hsb2rgb
returns exactly the entry of the six-sector table selected by the
integer sector floor(hue*6), with c = brightness*saturation and
x = c * (1 - |((hue*6) mod 2) - 1|). -/
theorem hsb2rgb_sector_correct (hue s b : ℚ)
    (h0 : 0 ≤ hue) (h1 : hue < 1)
    (hs0 : 0 ≤ s) (hs1 : s ≤ 1) (hb0 : 0 ≤ b) (hb1 : b ≤ 1) :
    hsb2rgb hue s b =
      sectorTable ⌊hue * 6⌋ (b * s) (b * s * (1 - |goMod (hue * 6) 2 - 1|)) := by
  rcases lt_or_le (hue * 6) 1 with c1 | c1
  · have hf := floorEq (hue * 6) 0 (by push_cast; linarith) (by push_cast; linarith)
    simp [hsb2rgb, sectorTable, hf, c1]
  · rcases lt_or_le (hue * 6) 2 with c2 | c2
    · have hf := floorEq (hue * 6) 1 (by push_cast; linarith) (by push_cast; linarith)
      simp [hsb2rgb, sectorTable, hf, c2, not_lt.mpr c1]
    · rcases lt_or_le (hue * 6) 3 with c3 | c3
      · have hf := floorEq (hue * 6) 2 (by push_cast; linarith) (by push_cast; linarith)
        simp [hsb2rgb, sectorTable, hf, c3, not_lt.mpr c1, not_lt.mpr c2]
      · rcases lt_or_le (hue * 6) 4 with c4 | c4
        · have hf := floorEq (hue * 6) 3 (by push_cast; linarith) (by push_cast; linarith)
          simp [hsb2rgb, sectorTable, hf, c4, not_lt.mpr c1, not_lt.mpr c2,
            not_lt.mpr c3]
        · rcases lt_or_le (hue * 6) 5 with c5 | c5
          · have hf := floorEq (hue * 6) 4 (by push_cast; linarith) (by push_cast; linarith)
            simp [hsb2rgb, sectorTable, hf, c5, not_lt.mpr c1, not_lt.mpr c2,
              not_lt.mpr c3, not_lt.mpr c4]
          · have hf := floorEq (hue * 6) 5 (by push_cast; linarith)
              (by push_cast; linarith)
            simp [hsb2rgb, sectorTable, hf, not_lt.mpr c1, not_lt.mpr c2,
              not_lt.mpr c3, not_lt.mpr c4, not_lt.mpr c5]

/-- C1 witness: the theorem applied at hue = 1/2, s = b = 1. -/
theorem hsb2rgb_sector_correct_witness :
    hsb2rgb (1/2) 1 1 =
      sectorTable ⌊(1/2 : ℚ) * 6⌋ (1 * 1)
        (1 * 1 * (1 - |goMod ((1/2 : ℚ) * 6) 2 - 1|)) :=
  hsb2rgb_sector_correct (1/2) 1 1 (by norm_num) (by norm_num) (by norm_num)
    (by norm_num) (by norm_num) (by norm_num)

/-- C6: hsb2rgb at hue exactly 1 is defined (the final catch-all branch
fires) and returns the sector-0 table entry evaluated at scaled hue 0,
namely (c, 0, 0): hue 1 wraps to the same value as sector 0. -/
theorem hsb2rgb_hue_one_wraps (s b : ℚ)
    (hs0 : 0 ≤ s) (hs1 : s ≤ 1) (hb0 : 0 ≤ b) (hb1 : b ≤ 1) :
    hsb2rgb 1 s b = sectorTable 0 (b * s) (b * s * (1 - |goMod 0 2 - 1|)) := by
  have h6 : goMod 6 2 = 0 := by norm_num [goMod, goTrunc]
  have h0 : goMod 0 2 = 0 := by norm_num [goMod, goTrunc]
  norm_num [hsb2rgb, sectorTable, h6, h0]

/-- C6 witness: the theorem applied at s = b = 1. -/
theorem hsb2rgb_hue_one_wraps_witness :
    hsb2rgb 1 1 1 = sectorTable 0 (1 * 1) (1 * 1 * (1 - |goMod 0 2 - 1|)) :=
  hsb2rgb_hue_one_wraps 1 1 (by norm_num) (by norm_num) (by norm_num) (by norm_num)

theorem goMod_two_bounds (q : ℚ) (hq : 0 ≤ q) : 0 ≤ goMod q 2 ∧ goMod q 2 < 2 := by
  have h2 : (0:ℚ) ≤ q / 2 := by positivity
  have ht : goTrunc (q / 2) = ⌊q / 2⌋ := if_pos h2
  constructor
  · have := Int.floor_le (q / 2)
    simp only [goMod, ht]
    linarith
  · have := Int.lt_floor_add_one (q / 2)
    simp only [goMod, ht]
    linarith

/-- C7: for hue in [0,1) and saturation, brightness in [0,1], every
component of the triple returned by hsb2rgb lies in [0,1]. -/
theorem hsb2rgb_components_in_unit_interval (hue s b : ℚ)
    (h0 : 0 ≤ hue) (h1 : hue < 1)
    (hs0 : 0 ≤ s) (hs1 : s ≤ 1) (hb0 : 0 ≤ b) (hb1 : b ≤ 1) :
    (0 ≤ (hsb2rgb hue s b).1 ∧ (hsb2rgb hue s b).1 ≤ 1) ∧
    (0 ≤ (hsb2rgb hue s b).2.1 ∧ (hsb2rgb hue s b).2.1 ≤ 1) ∧
    (0 ≤ (hsb2rgb hue s b).2.2 ∧ (hsb2rgb hue s b).2.2 ≤ 1) := by
  have hm := goMod_two_bounds (hue * 6) (by linarith)
  have habs : |goMod (hue * 6) 2 - 1| ≤ 1 := by
    rw [abs_le]
    constructor <;> linarith [hm.1, hm.2]
  have habs0 : 0 ≤ |goMod (hue * 6) 2 - 1| := abs_nonneg _
  have hc0 : 0 ≤ b * s := mul_nonneg hb0 hs0
  have hc1 : b * s ≤ 1 := mul_le_one₀ hb1 hs0 hs1
  have hx0 : 0 ≤ b * s * (1 - |goMod (hue * 6) 2 - 1|) :=
    mul_nonneg hc0 (by linarith)
  have hx1 : b * s * (1 - |goMod (hue * 6) 2 - 1|) ≤ 1 := by
    have h := mul_le_mul hc1
      (show 1 - |goMod (hue * 6) 2 - 1| ≤ 1 by linarith)
      (by linarith) zero_le_one
    linarith [h]
  simp only [hsb2rgb]
  split_ifs <;> dsimp only <;>
    exact ⟨⟨by linarith, by linarith⟩, ⟨by linarith, by linarith⟩,
      by linarith, by linarith⟩

/-- C7 witness: the theorem applied at hue = 1/3, s = b = 1. -/
theorem hsb2rgb_components_in_unit_interval_witness :
    (0 ≤ (hsb2rgb (1/3) 1 1).1 ∧ (hsb2rgb (1/3) 1 1).1 ≤ 1) ∧
    (0 ≤ (hsb2rgb (1/3) 1 1).2.1 ∧ (hsb2rgb (1/3) 1 1).2.1 ≤ 1) ∧
    (0 ≤ (hsb2rgb (1/3) 1 1).2.2 ∧ (hsb2rgb (1/3) 1 1).2.2 ≤ 1) :=
  hsb2rgb_components_in_unit_interval (1/3) 1 1 (by norm_num) (by norm_num)
    (by norm_num) (by norm_num) (by norm_num) (by norm_num)

/-- Embedding of the per-frame orthographic extent computation in
drawScene of the fixed-pipeline demo: ratio = width / height; when
ratio > 1 the extents (x1, x2, y1, y2) are (-ratio, ratio, -1, 1),
otherwise (-1, 1, -1/ratio, 1/ratio). -/
def drawSceneHalfExtents (width height : ℚ) : ℚ × ℚ × ℚ × ℚ :=
  let ratio := width / height
  if ratio > 1 then (-ratio, ratio, -1, 1)
  else (-1, 1, -1/ratio, 1/ratio)

/-- C5: the orthographic half-extents are (±ratio, ±1) when
ratio > 1 and (±1, ±1/ratio) otherwise; ratio 2 gives (-2, 2, -1, 1)
and ratio 1/2 gives (-1, 1, -2, 2). -/
theorem drawScene_halfExtents_correct (width height ratio : ℚ)
    (hr : ratio = width / height) :
    (ratio > 1 → drawSceneHalfExtents width height = (-ratio, ratio, -1, 1)) ∧
    (¬ratio > 1 → drawSceneHalfExtents width height = (-1, 1, -1/ratio, 1/ratio)) ∧
    drawSceneHalfExtents 100 50 = (-2, 2, -1, 1) ∧
    drawSceneHalfExtents 50 100 = (-1, 1, -2, 2) := by
  subst hr
  refine ⟨fun h => ?_, fun h => ?_, by norm_num [drawSceneHalfExtents],
    by norm_num [drawSceneHalfExtents]⟩
  · simp [drawSceneHalfExtents, h]
  · simp [drawSceneHalfExtents, h]

/-- C5 witness: the theorem applied at framebuffer size 100 by 50,
whose ratio is 2. -/
theorem drawScene_halfExtents_correct_witness :
    ((2:ℚ) > 1 → drawSceneHalfExtents 100 50 = (-2, 2, -1, 1)) ∧
    (¬(2:ℚ) > 1 → drawSceneHalfExtents 100 50 = (-1, 1, -1/2, 1/2)) ∧
    drawSceneHalfExtents 100 50 = (-2, 2, -1, 1) ∧
    drawSceneHalfExtents 50 100 = (-1, 1, -2, 2) :=
  drawScene_halfExtents_correct 100 50 2 (by norm_num)

/-- Embedding of charCallBack (identical in all three demos): given
the current close-requested flag of the window and the delivered
character, the callback sets the flag to true when the character is
the letter q and leaves it untouched otherwise. -/
def charCallBack (shouldClose : Bool) (c : Char) : Bool :=
  if c = 'q' then true else shouldClose

/-- C10: a character other than q leaves the close-requested flag
unchanged; exactly the character q sets it to true. -/
theorem charCallBack_only_q_closes (flag : Bool) (c : Char) :
    (c ≠ 'q' → charCallBack flag c = flag) ∧
    (c = 'q' → charCallBack flag c = true) ∧
    (charCallBack flag c = true → flag = true ∨ c = 'q') := by
  refine ⟨fun h => ?_, fun h => ?_, fun h => ?_⟩
  · simp [charCallBack, h]
  · simp [charCallBack, h]
  · by_cases hq : c = 'q'
    · exact Or.inr hq
    · exact Or.inl (by simpa [charCallBack, hq] using h)

/-- C10 witness: the theorem applied at the characters a and q with
the flag initially false. -/
theorem charCallBack_only_q_closes_witness :
    charCallBack false 'a' = false ∧ charCallBack false 'q' = true :=
  ⟨(charCallBack_only_q_closes false 'a').1 (by decide),
   (charCallBack_only_q_closes false 'q').2.1 rfl⟩

/-- Decoded image metadata as delivered by the image decoder: pixel
dimensions and the row stride of the decoded representation. -/
structure DecodedImage where
  width : ℕ
  height : ℕ
  stride : ℕ

/-- Stride of a freshly allocated Go image.NewRGBA buffer over a
rectangle of the given width, per the Go standard library image
package: NewRGBA always allocates a tightly packed buffer with
Stride = 4 * width. -/
def newRGBAStride (width : ℕ) : ℕ := 4 * width

/-- Embedding of the stride guard in makeTexture: the code allocates
rgba := image.NewRGBA(img.Bounds()) and raises the unsupported-stride
error when rgba.Stride differs from rgba.Rect.Size().X * 4.  The
guard inspects the freshly allocated rgba buffer, never the stride of
the decoded source image. -/
def makeTextureStrideError (img : DecodedImage) : Bool :=
  decide (newRGBAStride img.width ≠ img.width * 4)

/-- C4 counterexample: for a 3-row, width-4 decoded image with stride
20, the stride guard does not fire (the fresh RGBA buffer has stride
16 = 4*4), so no StrideError is raised, contradicting the claim. -/
theorem makeTexture_no_stride_error_at_stride_20 :
    makeTextureStrideError ⟨4, 3, 20⟩ = false := by decide

/-- C4 amended: the stride guard compares the stride of the freshly
allocated RGBA upload buffer with width*4, and since NewRGBA always
produces stride 4*width, the guard never fires for any decoded image;
the stride of the decoded source image is not examined at all. -/
theorem makeTexture_stride_check_vacuous (img : DecodedImage) :
    (makeTextureStrideError img = true ↔ newRGBAStride img.width ≠ img.width * 4) ∧
    makeTextureStrideError img = false := by
  constructor
  · simp [makeTextureStrideError]
  · simp [makeTextureStrideError, newRGBAStride, Nat.mul_comm]

/-- Outcome of a GL shader compile as observed through GetShaderiv:
the COMPILE_STATUS flag and the info log text. -/
structure CompileResult where
  status : Bool
  infoLog : String

/-- Outcome of a GL program link as observed through GetProgramiv. -/
structure LinkResult where
  status : Bool
  infoLog : String

/-- Embedding of makeShader: when COMPILE_STATUS is FALSE the code
fetches the info log and calls x(fmt.Errorf(...)), which terminates
the process via log.Fatalln; termination with a diagnostic is
modelled as an Except.error carrying the fatal message, which quotes
the full shader source followed by the info log.  On success the new
shader handle is returned. -/
def makeShader (handle : ℕ) (res : CompileResult) (source : String) :
    Except String ℕ :=
  if res.status = false then
    Except.error ("failed to compile " ++ source ++ ": " ++ res.infoLog)
  else Except.ok handle

/-- Embedding of makeProgram: link failure is fatal in the same way. -/
def makeProgram (handle : ℕ) (res : LinkResult) : Except String ℕ :=
  if res.status = false then
    Except.error ("failed to link program: " ++ res.infoLog)
  else Except.ok handle

/-- Shader and program construction steps of makeResources: vertex
shader, then fragment shader, then program link; the first fatal
error aborts the whole construction, so no aggregate is returned. -/
def makeResourcesPrograms (vres fres : CompileResult) (lres : LinkResult)
    (vsrc fsrc : String) : Except String (ℕ × ℕ × ℕ) := do
  let vs ← makeShader 1 vres vsrc
  let fs ← makeShader 2 fres fsrc
  let prog ← makeProgram 3 lres
  return (vs, fs, prog)

/-- C8: a failed shader compile produces the fatal diagnostic quoting
the shader source text and the info log; resource construction then
yields that error and never an aggregate, so no program handle and no
partially constructed resources reach the render loop. -/
theorem shader_compile_failure_fatal (res : CompileResult) (src : String)
    (hf : res.status = false) :
    (∀ handle, makeShader handle res src =
      Except.error ("failed to compile " ++ src ++ ": " ++ res.infoLog)) ∧
    (∀ vres lres vsrc, vres.status = true →
      makeResourcesPrograms vres res lres vsrc src =
        Except.error ("failed to compile " ++ src ++ ": " ++ res.infoLog)) ∧
    (∀ lres vsrc fsrc r, makeResourcesPrograms res ⟨true, ""⟩ lres vsrc fsrc ≠
      Except.ok r) := by
  refine ⟨fun handle => by simp [makeShader, hf], fun vres lres vsrc hv => ?_,
    fun lres vsrc fsrc r => ?_⟩
  · simp [makeResourcesPrograms, makeShader, hf, hv, Bind.bind, Except.bind,
      Functor.map, Except.map]
  · simp [makeResourcesPrograms, makeShader, hf, Bind.bind, Except.bind,
      Functor.map, Except.map]

/-- C8 witness: the theorem applied to a fragment shader whose
compile status is false. -/
theorem shader_compile_failure_fatal_witness :
    makeShader 7 ⟨false, "bad token"⟩ "void main()" =
      Except.error ("failed to compile " ++ "void main()" ++ ": " ++ "bad token") :=
  (shader_compile_failure_fatal ⟨false, "bad token"⟩ "void main()" rfl).1 7

/-- GL commands relevant to vertex-attribute array state, in the
order they are issued inside render. -/
inductive GLCmd where
  | enableAttrib (loc : ℕ)
  | disableAttrib (loc : ℕ)
  | draw
deriving DecidableEq

/-- Number of EnableVertexAttribArray calls in a command list. -/
def countEnable : List GLCmd → ℕ
  | [] => 0
  | GLCmd.enableAttrib _ :: rest => countEnable rest + 1
  | _ :: rest => countEnable rest

/-- Number of DisableVertexAttribArray calls in a command list. -/
def countDisable : List GLCmd → ℕ
  | [] => 0
  | GLCmd.disableAttrib _ :: rest => countDisable rest + 1
  | _ :: rest => countDisable rest

/-- The set of enabled attribute locations after executing a command
list from a given enabled set. -/
def runAttribState (enabled : Finset ℕ) : List GLCmd → Finset ℕ
  | [] => enabled
  | GLCmd.enableAttrib a :: rest => runAttribState (insert a enabled) rest
  | GLCmd.disableAttrib a :: rest => runAttribState (enabled.erase a) rest
  | GLCmd.draw :: rest => runAttribState enabled rest

/-- Attribute-relevant command subsequence of render in the hello
demo, whose frame is a single pass: enable the position attribute,
draw the triangle strip, disable it again. -/
def helloRenderPass (pos : ℕ) : List GLCmd :=
  [GLCmd.enableAttrib pos, GLCmd.draw, GLCmd.disableAttrib pos]

/-- Pass 1 of render in the three-pass demo: enable position of
program 1, draw the axis lines, disable it. -/
def demo3Pass1 (pos1 : ℕ) : List GLCmd :=
  [GLCmd.enableAttrib pos1, GLCmd.draw, GLCmd.disableAttrib pos1]

/-- Pass 2 of render in the three-pass demo: enable the position and
vertexColor attributes of program 2 and draw the triangle; no
disable call is issued before the pass ends. -/
def demo3Pass2 (pos2 col2 : ℕ) : List GLCmd :=
  [GLCmd.enableAttrib pos2, GLCmd.enableAttrib col2, GLCmd.draw]

/-- Pass 3 of render in the three-pass demo: rebind the pointers to
the circle buffers, draw the line loop, then disable vertexColor and
position. -/
def demo3Pass3 (pos2 col2 : ℕ) : List GLCmd :=
  [GLCmd.draw, GLCmd.disableAttrib col2, GLCmd.disableAttrib pos2]

/-- The full attribute-relevant trace of one frame of the three-pass
demo. -/
def demo3Frame (pos1 pos2 col2 : ℕ) : List GLCmd :=
  demo3Pass1 pos1 ++ demo3Pass2 pos2 col2 ++ demo3Pass3 pos2 col2

/-- C2 counterexample: with attribute locations 0, 1, 2, the second
draw pass of the three-pass render issues two enable calls and no
disable call, and both attributes enabled by it are still enabled
when the third pass begins. -/
theorem demo3_pass2_unbalanced :
    countEnable (demo3Pass2 1 2) ≠ countDisable (demo3Pass2 1 2) ∧
    runAttribState ∅ (demo3Pass1 0 ++ demo3Pass2 1 2) ≠ ∅ := by
  constructor
  · decide
  · intro h
    have h1 : (1 : ℕ) ∈ runAttribState ∅ (demo3Pass1 0 ++ demo3Pass2 1 2) := by
      decide
    rw [h] at h1
    exact absurd h1 (Finset.not_mem_empty 1)

/-- C2 amended: enable and disable calls are paired within the single
pass of the hello render and within the first pass of the three-pass
render, but the second pass issues two enables and no disable and the
third pass no enable and two disables; over a whole frame of either
demo the totals balance and no attribute remains enabled at frame
end. -/
theorem attrib_enable_disable_balanced_per_frame (pos1 pos2 col2 : ℕ) :
    countEnable (helloRenderPass pos1) = countDisable (helloRenderPass pos1) ∧
    countEnable (demo3Pass1 pos1) = countDisable (demo3Pass1 pos1) ∧
    countEnable (demo3Pass2 pos2 col2) = 2 ∧
    countDisable (demo3Pass2 pos2 col2) = 0 ∧
    countEnable (demo3Pass3 pos2 col2) = 0 ∧
    countDisable (demo3Pass3 pos2 col2) = 2 ∧
    countEnable (demo3Frame pos1 pos2 col2) =
      countDisable (demo3Frame pos1 pos2 col2) ∧
    runAttribState ∅ (helloRenderPass pos1) = ∅ ∧
    runAttribState ∅ (demo3Frame pos1 pos2 col2) = ∅ := by
  have hp : (insert pos1 (∅ : Finset ℕ)).erase pos1 = ∅ := by
    rw [Finset.erase_insert_eq_erase, Finset.erase_empty]
  refine ⟨rfl, rfl, rfl, rfl, rfl, rfl, rfl, ?_, ?_⟩
  · simp only [helloRenderPass, runAttribState, hp]
  · simp only [demo3Frame, demo3Pass1, demo3Pass2, demo3Pass3, List.cons_append,
      List.nil_append, runAttribState, hp]
    rw [Finset.erase_insert_eq_erase, Finset.erase_right_comm,
      Finset.erase_insert_eq_erase, Finset.erase_empty, Finset.erase_empty]

/-- Embedding of the row-copy loop in makeTexture of the hello demo.
An image is modelled as its list of rows (one element per row of
pixel data, the decoded bounds having origin zero).  The code
allocates a destination of the same height filled with blank rows,
then for every h in [0, height) draws source row h into the
destination rectangle Rect(0, height-1-h, width, height-h), which
spans exactly destination row height-1-h. -/
def flipCopy {α : Type} (src : List α) (blank : α) : List α :=
  (List.range src.length).foldl
    (fun dst h => dst.set (src.length - 1 - h) (src.getD h blank))
    (List.replicate src.length blank)

theorem flipCopy_loop_inv {α : Type} (src : List α) (blank : α) (k : ℕ)
    (hk : k ≤ src.length) :
    ((List.range k).foldl
        (fun dst h => dst.set (src.length - 1 - h) (src.getD h blank))
        (List.replicate src.length blank)).length = src.length ∧
    ∀ j, j < src.length →
      ((List.range k).foldl
          (fun dst h => dst.set (src.length - 1 - h) (src.getD h blank))
          (List.replicate src.length blank)).getD j blank =
        if src.length - 1 - j < k then src.getD (src.length - 1 - j) blank
        else blank := by
  induction k with
  | zero =>
      refine ⟨by simp, fun j hj => ?_⟩
      simp [List.getD_eq_getElem?_getD, List.getElem?_replicate, hj]
  | succ k ih =>
      obtain ⟨hlen, hget⟩ := ih (Nat.le_of_succ_le hk)
      rw [List.range_succ, List.foldl_append]
      set F := (List.range k).foldl
          (fun dst h => dst.set (src.length - 1 - h) (src.getD h blank))
          (List.replicate src.length blank) with hF
      simp only [List.foldl_cons, List.foldl_nil]
      refine ⟨by rw [List.length_set, hlen], fun j hj => ?_⟩
      by_cases hj' : j = src.length - 1 - k
      · subst hj'
        have hlt : src.length - 1 - k < F.length := by rw [hlen]; omega
        rw [List.getD_eq_getElem?_getD, List.getElem?_set_eq_of_lt _ hlt]
        have harith : src.length - 1 - (src.length - 1 - k) = k := by omega
        rw [harith, if_pos (Nat.lt_succ_self k)]
        rfl
      · have hne : src.length - 1 - k ≠ j := fun hc => hj' hc.symm
        rw [List.getD_eq_getElem?_getD, List.getElem?_set_ne hne,
          ← List.getD_eq_getElem?_getD, hget j hj]
        by_cases hlt : src.length - 1 - j < k
        · rw [if_pos hlt, if_pos (by omega)]
        · rw [if_neg hlt, if_neg (by omega)]

/-- C3: the copy from the decoded image into the upload buffer is a
vertical flip: every source row h lands in destination row
height-1-h, and a two-row image comes out with its rows swapped. -/
theorem makeTexture_flips_rows {α : Type} (src : List α) (blank : α) :
    (∀ h, h < src.length →
      (flipCopy src blank).getD (src.length - 1 - h) blank = src.getD h blank) ∧
    ∀ r0 r1 : α, flipCopy [r0, r1] blank = [r1, r0] := by
  constructor
  · intro h hh
    obtain ⟨hlen, hget⟩ := flipCopy_loop_inv src blank src.length le_rfl
    unfold flipCopy
    rw [hget (src.length - 1 - h) (by omega), if_pos (by omega)]
    have harith : src.length - 1 - (src.length - 1 - h) = h := by omega
    rw [harith]
  · intro r0 r1
    rfl

/-- C3 witness: the theorem applied to a concrete two-row image. -/
theorem makeTexture_flips_rows_witness :
    (flipCopy [10, 20] 0).getD (([10, 20] : List ℕ).length - 1 - 0) 0 =
      ([10, 20] : List ℕ).getD 0 0 :=
  (makeTexture_flips_rows [10, 20] 0).1 0 (by decide)

/-- Vertex positions of the hello quad (two floats per vertex). -/
def gVertexBufferData : List ℚ := [-1, -1, 1, -1, -1, 1, 1, 1]

/-- Element indices of the hello quad. -/
def gElementBufferData : List ℕ := [0, 1, 2, 3]

/-- Count argument of the DrawElements call in the hello render. -/
def helloDrawCount : ℕ := 4

/-- Vertex positions of the axis lines in the three-pass demo. -/
def gVertexBufferData1 : List ℚ := [-1, 0, 1, 0, 0, -1, 0, 1]

/-- Element indices of the axis lines. -/
def gElementBufferData1 : List ℕ := [0, 1, 2, 3]

/-- Count argument of the pass-1 DrawElements call. -/
def demo3Draw1Count : ℕ := 4

/-- Vertex positions of the triangle in the three-pass demo. -/
def gVertexBufferData2 : List ℚ := [0, 1, 0.866, -0.5, -0.866, -0.5]

/-- Element indices of the triangle. -/
def gElementBufferData2 : List ℕ := [0, 1, 2]

/-- Count argument of the pass-2 DrawElements call. -/
def demo3Draw2Count : ℕ := 3

/-- Buffers accumulated by the circle-construction loop in
makeResources of the three-pass demo. -/
structure Buffer3 where
  colorData : List ℚ
  vertexData : List ℚ
  elementData : List ℕ
  len3 : ℕ

/-- Embedding of the circle loop in makeResources: per iteration the
code appends the rgb triple from hsb2rgb to the color buffer, an xy
pair to the vertex buffer, and the current value of len3 to the
element buffer, then increments len3.  The iteration count of the
float loop (i stepping by 0.05 while i < 2*pi) and the transcendental
sample values are kept abstract: the loop body is modelled exactly,
for an arbitrary number n of iterations, with the per-iteration color
and vertex samples as parameters. -/
def buildBuffer3 (color : ℕ → ℚ × ℚ × ℚ) (vtx : ℕ → ℚ × ℚ) (n : ℕ) : Buffer3 :=
  (List.range n).foldl
    (fun buf i =>
      { colorData := buf.colorData ++ [(color i).1, (color i).2.1, (color i).2.2]
        vertexData := buf.vertexData ++ [(vtx i).1, (vtx i).2]
        elementData := buf.elementData ++ [buf.len3]
        len3 := buf.len3 + 1 })
    ⟨[], [], [], 0⟩

theorem buildBuffer3_spec (color : ℕ → ℚ × ℚ × ℚ) (vtx : ℕ → ℚ × ℚ) (n : ℕ) :
    (buildBuffer3 color vtx n).len3 = n ∧
    (buildBuffer3 color vtx n).elementData = List.range n ∧
    (buildBuffer3 color vtx n).vertexData.length = 2 * n := by
  induction n with
  | zero => exact ⟨rfl, rfl, rfl⟩
  | succ n ih =>
      obtain ⟨h1, h2, h3⟩ := ih
      unfold buildBuffer3 at *
      rw [List.range_succ, List.foldl_append]
      simp only [List.foldl_cons, List.foldl_nil]
      refine ⟨?_, ?_, ?_⟩ <;> dsimp only
      · rw [h1]
      · rw [h2, h1]
      · rw [List.length_append, h3]
        simp only [List.length_cons, List.length_nil]
        omega

/-- C9: every index in every element buffer is strictly below the
number of two-float vertices in the vertex buffer it is drawn
against, and each indexed draw call passes a count equal to the
length of its element buffer (the literal counts 4, 4 and 3 for the
static buffers, and len3 for the circle pass). -/
theorem indexed_draws_in_bounds :
    (∀ e ∈ gElementBufferData, e < gVertexBufferData.length / 2) ∧
    helloDrawCount = gElementBufferData.length ∧
    (∀ e ∈ gElementBufferData1, e < gVertexBufferData1.length / 2) ∧
    demo3Draw1Count = gElementBufferData1.length ∧
    (∀ e ∈ gElementBufferData2, e < gVertexBufferData2.length / 2) ∧
    demo3Draw2Count = gElementBufferData2.length ∧
    (∀ color vtx n, ∀ e ∈ (buildBuffer3 color vtx n).elementData,
      e < (buildBuffer3 color vtx n).vertexData.length / 2) ∧
    (∀ color vtx n, (buildBuffer3 color vtx n).len3 =
      (buildBuffer3 color vtx n).elementData.length) := by
  refine ⟨by decide, by decide, by decide, by decide, by decide, by decide,
    fun color vtx n e he => ?_, fun color vtx n => ?_⟩
  · obtain ⟨h1, h2, h3⟩ := buildBuffer3_spec color vtx n
    rw [h2] at he
    rw [h3]
    have := List.mem_range.mp he
    omega
  · obtain ⟨h1, h2, h3⟩ := buildBuffer3_spec color vtx n
    rw [h1, h2, List.length_range]

/-- C9 witness: index 0 of the hello element buffer is in bounds. -/
theorem indexed_draws_in_bounds_witness :
    (0 : ℕ) < gVertexBufferData.length / 2 :=
  indexed_draws_in_bounds.1 0 (by decide)
